import Mathlib

/-!
# HTML-Parser: the command-line driver `src/main.c` and the parsing core it calls

The repository's listing is the driver `main.c`.  It is embedded here as a
function from the command line and the collaborators it calls
(`read_file_to_buffer`, `lexer_init`, `parser_init`, `parse`, declared in
`utils.h`, `lexer.h`, `parser.h`, `dom.h`) to the exit status and the ordered
trace of everything `main` does: every write to `stdout`/`stderr`, every
delay, every call into the core and every release.

The lexer, the parser and the document tree are not part of the listing; the
second half of the file models them from the specification.
-/

namespace HtmlParser

/-! ## The driver: `src/main.c` -/

/-- The value of `EXIT_SUCCESS` in `<stdlib.h>`. -/
def EXIT_SUCCESS : Int := 0

/-- The value of `EXIT_FAILURE` in `<stdlib.h>`. -/
def EXIT_FAILURE : Int := 1

/-- One action of `main`, in program order.  `L`, `P`, `D` are the values
    `lexer_init`, `parser_init` and `parse` hand back (`Lexer*`, `Parser*`,
    `DomNode*`); a buffer is named by the text it holds. -/
inductive Event (L P D : Type) where
  /-- A call `printf(...)`: the text written to `stdout`. -/
  | printf (text : String)
  /-- A call `fprintf(stderr, ...)`: the text written to `stderr`. -/
  | fprintf_stderr (text : String)
  /-- A call `fflush(stdout)`. -/
  | fflush_stdout
  /-- A call `sleep(seconds)`. -/
  | sleep (seconds : Nat)
  /-- A call `usleep(usec)`. -/
  | usleep (usec : Nat)
  /-- A call `read_file_to_buffer(filename)`. -/
  | read_file_to_buffer (filename : String)
  /-- A call `lexer_init(source_code)`. -/
  | lexer_init (source_code : String)
  /-- A call `parser_init(lexer)`. -/
  | parser_init (lexer : L)
  /-- A call `parse(parser)`. -/
  | parse (parser : P)
  /-- The read of `parser->has_error` in `if (parser->has_error)`, with the
      value read. -/
  | read_has_error (parser : P) (value : Bool)
  /-- A call `print_dom_tree(dom_root, depth)`. -/
  | print_dom_tree (dom_root : D) (depth : Int)
  /-- A call `free(source_code)`. -/
  | free (source_code : String)
  /-- A call `lexer_free(lexer)`. -/
  | lexer_free (lexer : L)
  /-- A call `parser_free(parser)`. -/
  | parser_free (parser : P)
  /-- A call `free_dom_tree(dom_root)`. -/
  | free_dom_tree (dom_root : D)

/-- What `parse(parser)` hands to its caller: the returned `DomNode*` and the
    two fields of `*parser` that `main` reads afterwards. -/
structure ParseOutcome (D : Type) where
  dom_root : D
  has_error : Bool
  error_message : String

/-- The functions `main` calls that are declared in `utils.h`, `lexer.h` and
    `parser.h`.  `read_file_to_buffer` answers `none` for `NULL`. -/
structure Core (L P D : Type) where
  read_file_to_buffer : String → Option String
  lexer_init : String → L
  parser_init : L → P
  parse : P → ParseOutcome D

/-- What a run of `main` leaves behind: the value it returns and its actions
    in program order. -/
structure Run (L P D : Type) where
  status : Int
  trace : List (Event L P D)

/-- The result of `strlen(s)`: the number of bytes of the C string. -/
def strlen (s : String) : Nat := s.utf8ByteSize

/-- What `%s` prints for a `char*` that may be `NULL` (glibc prints `(null)`
    for `NULL`; `argv[0]` is `NULL` only when `argc` is 0). -/
def fmt_s : Option String → String
  | some s => s
  | none => "(null)"

/-- The helper `static void delay_print(const char *message, int ms_delay)`:
    print, flush, wait `ms_delay` milliseconds. -/
def delay_print {L P D : Type} (message : String) (ms_delay : Nat) : List (Event L P D) :=
  [.printf message, .fflush_stdout, .usleep (ms_delay * 1000)]

/-- The loop `for (int i = 0; i < n; i++) body`, for a body that does not
    read `i`. -/
def for_loop {L P D : Type} : Nat → List (Event L P D) → List (Event L P D)
  | 0, _ => []
  | n + 1, body => body ++ for_loop n body

/-- The entry point `int main(int argc, char* argv[])`.  `argv` lists the
    strings `argv[0]` to `argv[argc - 1]`, so `argc` is `argv.length`: the
    test `argc != 2` fails exactly on a two-element list, whose second
    element is `argv[1]`. -/
def main {L P D : Type} (core : Core L P D) (argv : List String) : Run L P D :=
  -- --- 1. Argument Checking ---
  match argv with
  | [_, filename] =>
    let t1 : List (Event L P D) :=
      [.printf "🚀 Starting HTML Parser...\n\n", .sleep 1]
      -- --- 2. Read File ---
      ++ [.printf ("📂 Reading file: " ++ filename ++ "\n")]
      ++ delay_print "   Loading" 300
      ++ for_loop 3 (delay_print "." 400)
      ++ [.printf "\n"]
      ++ [.read_file_to_buffer filename]
    match core.read_file_to_buffer filename with
    | none =>
      { status := EXIT_FAILURE
        trace := t1 ++ [.fprintf_stderr ("❌ Error: Could not read file '" ++ filename ++ "'.\n")] }
    | some source_code =>
      -- --- 3. Initialize Components ---
      let lexer := core.lexer_init source_code
      let parser := core.parser_init lexer
      let result := core.parse parser
      let dom_root := result.dom_root
      let t2 : List (Event L P D) :=
        t1
        ++ [.printf ("✅ File read successfully (" ++ toString (strlen source_code) ++ " bytes)\n\n"),
            .sleep 1]
        ++ [.printf "⚙️ Initializing Lexer and Parser...\n"]
        ++ [.lexer_init source_code, .parser_init lexer]
        ++ [.usleep (800 * 1000)]
        ++ [.printf "✅ Components initialized successfully.\n\n", .sleep 1]
        -- --- 4. Parse ---
        ++ [.printf "🧠 Parsing document...\n"]
        ++ for_loop 3
            (delay_print "   Processing" 350 ++ for_loop 3 (delay_print "." 300) ++ [.printf "\r"])
        ++ [.printf "\n"]
        ++ [.parse parser]
        -- --- 5. Check for Errors ---
        ++ [.read_has_error parser result.has_error]
      if result.has_error then
        { status := EXIT_FAILURE
          trace :=
            t2
            ++ [.fprintf_stderr "\n❌ PARSE FAILED ❌\n",
                .fprintf_stderr (result.error_message ++ "\n")]
            -- Cleanup
            ++ [.free source_code, .lexer_free lexer, .parser_free parser,
                .free_dom_tree dom_root] }
      else
        { status := EXIT_SUCCESS
          trace :=
            t2
            ++ [.printf "✅ Parsing successful!\n\n", .sleep 1]
            -- --- 6. Print DOM Tree ---
            ++ [.printf "🌳 Generated DOM Tree:\n\n", .usleep (700 * 1000)]
            ++ [.print_dom_tree dom_root 0]
            ++ [.printf "\n--------------------------\n\n", .sleep 1]
            -- --- 7. Cleanup ---
            ++ [.printf "🧹 Cleaning up memory...\n"]
            ++ for_loop 3
                (delay_print "   Freeing resources" 400 ++ for_loop 3 (delay_print "." 300)
                  ++ [.printf "\r"])
            ++ [.printf "\n✅ Done.\n"]
            ++ [.free source_code, .lexer_free lexer, .parser_free parser,
                .free_dom_tree dom_root]
            ++ [.printf "\n✨ Program finished successfully! ✨\n"] }
  | _ =>
    { status := EXIT_FAILURE
      trace := [.fprintf_stderr ("Usage: " ++ fmt_s argv.head? ++ " <filename.html>\n")] }

/-! ## The parsing core: lexer, parser and document tree

`lexer.h`, `parser.h` and `dom.h` and their implementations are not in the
listing.  The definitions below model them from the specification (sections 3
and 4); each says what it stands for and where the specification leaves a
choice open.
-/

/-- Modelled from the spec: the source position (byte/line/column) kept for
    diagnostics.  Bytes count from 0, lines and columns from 1 (the
    specification does not fix the origin). -/
structure Position where
  byte : Nat
  line : Nat
  column : Nat
deriving DecidableEq, Repr

/-- Modelled from the spec: the position of the first byte of a buffer. -/
def Position.start : Position := ⟨0, 1, 1⟩

/-- Modelled from the spec: the position after one more character of the
    buffer has been scanned. -/
def Position.advance (p : Position) (c : Char) : Position :=
  if c = Char.ofNat 10 then ⟨p.byte + c.utf8Size, p.line + 1, 1⟩
  else ⟨p.byte + c.utf8Size, p.line, p.column + 1⟩

/-- Modelled from the spec: `Token` of section 3, the lexical units handed
    from the lexer to the parser. -/
inductive Token where
  | TagOpen (name : String) (attributes : List (String × String)) (self_closing : Bool)
  | TagClose (name : String)
  | Text (content : String)
  | Comment (content : String)
  | EndOfInput
deriving DecidableEq, Repr

/-- Modelled from the spec: `DocumentNode` of section 3, the nodes of the
    document tree (`DomNode` in `dom.h`). -/
inductive DocumentNode where
  | Element (tag_name : String) (attributes : List (String × String))
      (children : List DocumentNode)
  | Text (content : String)
  | Comment (content : String)
  | Document (children : List DocumentNode)
deriving Repr

/-- Modelled from the spec: the ordered children a node owns; text and
    comment nodes are leaves. -/
def DocumentNode.children : DocumentNode → List DocumentNode
  | .Element _ _ cs => cs
  | .Document cs => cs
  | .Text _ => []
  | .Comment _ => []

/-- Modelled from the spec: the kinds of `LexError` of section 7. -/
inductive LexErrorKind where
  | unterminated_comment
  | malformed_tag
  | unexpected_character
deriving DecidableEq, Repr

/-- Modelled from the spec: the message of a `LexError`, as section 8 quotes
    it. -/
def LexErrorKind.message : LexErrorKind → String
  | .unterminated_comment => "unterminated comment"
  | .malformed_tag => "malformed tag"
  | .unexpected_character => "unexpected character"

/-- Modelled from the spec: what one call of the lexer's `next_token()`
    yields, a token or a lexing error. -/
inductive Lexeme where
  | token (t : Token)
  | error (kind : LexErrorKind)
deriving DecidableEq, Repr

/-- Modelled from the spec: a lexeme with the source position it was scanned
    at (a token: its first character; an error: where it was detected). -/
structure LexItem where
  position : Position
  lexeme : Lexeme
deriving DecidableEq, Repr

/-- Modelled from the spec: a start tag being scanned: where it began, its
    lower-cased name and the attributes read so far, in order. -/
structure TagScan where
  start : Position
  name : List Char
  attributes : List (String × String)
deriving DecidableEq, Repr

/-- Modelled from the spec: the states of the lexer of section 4.1, `Data` →
    `TagOpenStart` → (`EndTag`, `Comment`, `StartTag`) → `Data`, with the
    sub-states the scan of a comment terminator, a tag name and an attribute
    list needs; `stopped` follows a lexing error. -/
inductive LexState where
  | data (start : Position) (text : List Char)
  | tag_open_start (start : Position)
  | comment_bang (start : Position)
  | comment_bang_dash (start : Position)
  | comment (start : Position) (content : List Char)
  | comment_dash (start : Position) (content : List Char)
  | comment_dash_dash (start : Position) (content : List Char)
  | end_tag_name (start : Position) (name : List Char)
  | end_tag_after_name (start : Position) (name : List Char)
  | start_tag_name (tag : TagScan)
  | before_attribute (tag : TagScan)
  | attribute_name (tag : TagScan) (key : List Char)
  | attribute_value_start (tag : TagScan) (key : List Char)
  | attribute_value (tag : TagScan) (key : List Char) (quote : Char) (value : List Char)
  | self_closing_slash (tag : TagScan)
  | stopped
deriving DecidableEq, Repr

/-- Modelled from the spec: a name start character (an ASCII letter; the
    specification does not list them). -/
def is_name_start (c : Char) : Bool := c.isAlpha

/-- Modelled from the spec: a character of an identifier after its first
    (letters, digits, `-`, `_`; the specification does not list them). -/
def is_name_char (c : Char) : Bool := c.isAlphanum || c == '-' || c == '_'

/-- Modelled from the spec: a tag name as the token carries it, lower-cased
    for case-insensitive matching. -/
def tag_name_of (name : List Char) : String := String.mk (name.map Char.toLower)

/-- Modelled from the spec: the `Text` token for a run of characters; an
    empty run yields no token. -/
def text_items (start : Position) (text : List Char) : List LexItem :=
  if text = [] then [] else [⟨start, .token (.Text (String.mk text))⟩]

/-- Modelled from the spec: the `TagOpen` token of a scanned start tag. -/
def tag_open_item (tag : TagScan) (self_closing : Bool) : LexItem :=
  ⟨tag.start, .token (.TagOpen (tag_name_of tag.name) tag.attributes self_closing)⟩

/-- Modelled from the spec: the scanned start tag with one more attribute;
    an attribute without a value is stored with the empty string. -/
def TagScan.with_attribute (tag : TagScan) (key value : List Char) : TagScan :=
  { tag with attributes := tag.attributes ++ [(String.mk key, String.mk value)] }

/-- Modelled from the spec: one transition of the lexer of section 4.1 on the
    character `c` at position `pos`: the next state and the lexemes completed
    by `c`. -/
def lex_step (s : LexState) (pos : Position) (c : Char) : LexState × List LexItem :=
  let fail (kind : LexErrorKind) : LexState × List LexItem :=
    (.stopped, [⟨pos, .error kind⟩])
  match s with
  | .data start text =>
    if c = '<' then (.tag_open_start pos, text_items start text)
    else (.data (if text = [] then pos else start) (text ++ [c]), [])
  | .tag_open_start start =>
    if c = '/' then (.end_tag_name start [], [])
    else if c = '!' then (.comment_bang start, [])
    else if is_name_start c then (.start_tag_name ⟨start, [c], []⟩, [])
    else fail .malformed_tag
  | .comment_bang start =>
    if c = '-' then (.comment_bang_dash start, []) else fail .malformed_tag
  | .comment_bang_dash start =>
    if c = '-' then (.comment start [], []) else fail .malformed_tag
  | .comment start content =>
    if c = '-' then (.comment_dash start content, [])
    else (.comment start (content ++ [c]), [])
  | .comment_dash start content =>
    if c = '-' then (.comment_dash_dash start content, [])
    else (.comment start (content ++ ['-', c]), [])
  | .comment_dash_dash start content =>
    if c = '>' then (.data pos [], [⟨start, .token (.Comment (String.mk content))⟩])
    else if c = '-' then (.comment_dash_dash start (content ++ ['-']), [])
    else (.comment start (content ++ ['-', '-', c]), [])
  | .end_tag_name start name =>
    if (if name = [] then is_name_start c else is_name_char c) then
      (.end_tag_name start (name ++ [c]), [])
    else if name = [] then fail (if c = '>' then .malformed_tag else .unexpected_character)
    else if c = '>' then (.data pos [], [⟨start, .token (.TagClose (tag_name_of name))⟩])
    else if c.isWhitespace then (.end_tag_after_name start name, [])
    else fail .unexpected_character
  | .end_tag_after_name start name =>
    if c = '>' then (.data pos [], [⟨start, .token (.TagClose (tag_name_of name))⟩])
    else if c.isWhitespace then (.end_tag_after_name start name, [])
    else fail .unexpected_character
  | .start_tag_name tag =>
    if is_name_char c then (.start_tag_name { tag with name := tag.name ++ [c] }, [])
    else if c = '>' then (.data pos [], [tag_open_item tag false])
    else if c = '/' then (.self_closing_slash tag, [])
    else if c.isWhitespace then (.before_attribute tag, [])
    else fail .unexpected_character
  | .before_attribute tag =>
    if c = '>' then (.data pos [], [tag_open_item tag false])
    else if c = '/' then (.self_closing_slash tag, [])
    else if c.isWhitespace then (.before_attribute tag, [])
    else if is_name_start c then (.attribute_name tag [c], [])
    else fail .unexpected_character
  | .attribute_name tag key =>
    if is_name_char c then (.attribute_name tag (key ++ [c]), [])
    else if c = '=' then (.attribute_value_start tag key, [])
    else if c = '>' then (.data pos [], [tag_open_item (tag.with_attribute key []) false])
    else if c = '/' then (.self_closing_slash (tag.with_attribute key []), [])
    else if c.isWhitespace then (.before_attribute (tag.with_attribute key []), [])
    else fail .unexpected_character
  | .attribute_value_start tag key =>
    if c = Char.ofNat 34 ∨ c = Char.ofNat 39 then (.attribute_value tag key c [], [])
    else fail .unexpected_character
  | .attribute_value tag key quote value =>
    if c = quote then (.before_attribute (tag.with_attribute key value), [])
    else (.attribute_value tag key quote (value ++ [c]), [])
  | .self_closing_slash tag =>
    if c = '>' then (.data pos [], [tag_open_item tag true])
    else fail .unexpected_character
  | .stopped => (.stopped, [])

/-- Modelled from the spec: what the lexer yields when the buffer ends in
    state `s`: the pending text run, then `EndOfInput`; a comment left open is
    the error "unterminated comment", a tag left open is malformed. -/
def lex_finish (s : LexState) (pos : Position) : List LexItem :=
  match s with
  | .data start text => text_items start text ++ [⟨pos, .token .EndOfInput⟩]
  | .comment _ _ => [⟨pos, .error .unterminated_comment⟩]
  | .comment_dash _ _ => [⟨pos, .error .unterminated_comment⟩]
  | .comment_dash_dash _ _ => [⟨pos, .error .unterminated_comment⟩]
  | .stopped => []
  | _ => [⟨pos, .error .malformed_tag⟩]

/-- Modelled from the spec: the lexemes the lexer yields, in order, from state
    `s` at position `pos` over the rest of the buffer. -/
def lex_from : LexState → Position → List Char → List LexItem
  | s, pos, [] => lex_finish s pos
  | s, pos, c :: cs => (lex_step s pos c).2 ++ lex_from (lex_step s pos c).1 (pos.advance c) cs

/-- Modelled from the spec: the whole lexeme stream of a buffer, from the
    `Data` state at its first byte. -/
def tokenize (buffer : String) : List LexItem :=
  lex_from (.data Position.start []) Position.start buffer.toList

/-- Modelled from the spec: the `Lexer` of `lexer.h`, a scanner over a buffer
    it borrows; its state is the lexemes it has not yet handed out, one per
    `next_token()` call (`EndOfInput` forever once there is none left). -/
structure Lexer where
  buffer : String
  pending : List LexItem
deriving Repr

/-- Modelled from the spec: `lexer_init(source_code)`, `create_lexer(buffer)`
    of section 6. -/
def lexer_init (source_code : String) : Lexer :=
  { buffer := source_code, pending := tokenize source_code }

/-- Modelled from the spec: an element on the open-element stack: its name,
    its attributes and the children appended to it so far. -/
structure OpenElement where
  tag_name : String
  attributes : List (String × String)
  children : List DocumentNode
deriving Repr

/-- Modelled from the spec: the `Element` node an open element is once it is
    closed. -/
def OpenElement.to_node (e : OpenElement) : DocumentNode :=
  .Element e.tag_name e.attributes e.children

/-- Modelled from the spec: the open element with one more child, appended in
    document order. -/
def OpenElement.append (e : OpenElement) (node : DocumentNode) : OpenElement :=
  { e with children := e.children ++ [node] }

/-- Modelled from the spec: the one error a parse retains, message and
    position. -/
structure ParseError where
  message : String
  position : Position
deriving DecidableEq, Repr

/-- Modelled from the spec: `ParserState` of section 3.  `root` holds the
    children of the virtual `Document` root, the bottom of the open-element
    stack; `stack` holds the open elements above it, innermost first.  An
    open element is appended to its parent when it is popped. -/
structure ParserState where
  root : List DocumentNode
  stack : List OpenElement
  error : Option ParseError
  position : Position
deriving Repr

/-- Modelled from the spec: `parser->has_error`. -/
def ParserState.has_error (st : ParserState) : Bool := st.error.isSome

/-- Modelled from the spec: `parser->error_message`, empty while there is no
    error. -/
def ParserState.error_message (st : ParserState) : String :=
  match st.error with
  | some e => e.message
  | none => ""

/-- Modelled from the spec: tag names are compared case-insensitively. -/
def names_match (a b : String) : Bool :=
  a.toList.map Char.toLower == b.toList.map Char.toLower

/-- Modelled from the spec: duplicate attribute names on one tag, last
    occurrence wins: `set_attribute` stores `value` under `key`, replacing an
    earlier value of the same key in place. -/
def set_attribute (key value : String) : List (String × String) → List (String × String)
  | [] => [(key, value)]
  | (k, v) :: rest =>
    if k = key then (k, value) :: rest else (k, v) :: set_attribute key value rest

/-- Modelled from the spec: the attributes of an element built from a token's
    attributes, one entry per name. -/
def element_attributes (attributes : List (String × String)) : List (String × String) :=
  attributes.foldl (fun acc kv => set_attribute kv.1 kv.2 acc) []

/-- Modelled from the spec: append `node` as a child of the current
    top-of-stack container (the `Document` root when no element is open). -/
def append_child (st : ParserState) (node : DocumentNode) : ParserState :=
  match st.stack with
  | [] => { st with root := st.root ++ [node] }
  | top :: rest => { st with stack := top.append node :: rest }

/-- Modelled from the spec: the children of the `Document` root once `child`,
    just popped, and every open element below it are appended to their
    parents. -/
def close_onto (child : DocumentNode) (root : List DocumentNode) :
    List OpenElement → List DocumentNode
  | [] => root ++ [child]
  | parent :: rest => close_onto (parent.append child).to_node root rest

/-- Modelled from the spec: the children of the `Document` root once every
    open element is implicitly closed, innermost first. -/
def close_all (root : List DocumentNode) : List OpenElement → List DocumentNode
  | [] => root
  | top :: rest => close_onto top.to_node root rest

/-- Modelled from the spec: the document tree built so far, the `Document`
    root with every element in its place, open or closed. -/
def tree_of (st : ParserState) : DocumentNode :=
  .Document (close_all st.root st.stack)

/-- Modelled from the spec: the outcome of popping the stack for a close tag:
    the root children and stack left once the matching element is closed, or
    the root children once the stack has emptied without a match. -/
inductive PopResult where
  | matched (root : List DocumentNode) (stack : List OpenElement)
  | unmatched (root : List DocumentNode)
deriving Repr

/-- Modelled from the spec: on `TagClose`, pop the stack while the top's name
    does not match the close tag name, appending each popped element to its
    parent as already closed; the matching element is popped and appended
    likewise.  `top` is the current top of the stack, the list what lies below
    it down to the `Document` root, which has no name and matches nothing. -/
def pop_until (name : String) (root : List DocumentNode) :
    OpenElement → List OpenElement → PopResult
  | top, [] =>
    if names_match top.tag_name name then .matched (root ++ [top.to_node]) []
    else .unmatched (root ++ [top.to_node])
  | top, parent :: rest =>
    if names_match top.tag_name name then .matched root (parent.append top.to_node :: rest)
    else pop_until name root (parent.append top.to_node) rest

/-- Modelled from the spec: record an error; the first error wins. -/
def record_error (st : ParserState) (message : String) (position : Position) : ParserState :=
  match st.error with
  | some _ => st
  | none => { st with error := some ⟨message, position⟩ }

/-- Modelled from the spec: the `TagClose` case of section 4.2. -/
def handle_close (st : ParserState) (name : String) (position : Position) : ParserState :=
  match st.stack with
  | [] => record_error st ("unmatched closing tag " ++ name) position
  | top :: rest =>
    match pop_until name st.root top rest with
    | .matched root stack => { st with root := root, stack := stack }
    | .unmatched root =>
      record_error { st with root := root, stack := [] } ("unmatched closing tag " ++ name)
        position

/-- Modelled from the spec: the `EndOfInput` case of section 4.2: elements
    still open are implicitly closed, no error is recorded. -/
def handle_end_of_input (st : ParserState) : ParserState :=
  { st with root := close_all st.root st.stack, stack := [] }

/-- Modelled from the spec: what one turn of the parse loop decides. -/
inductive Step where
  | continue (st : ParserState)
  | halt (st : ParserState)
deriving Repr

/-- Modelled from the spec: one turn of the parse loop of section 4.2 on the
    lexeme just pulled from the lexer.  An element that is not self-closing is
    pushed; it is appended to its parent when it is popped, and `tree_of`
    shows it in its place while it is open. -/
def parse_step (st : ParserState) (item : LexItem) : Step :=
  let st := { st with position := item.position }
  match item.lexeme with
  | .error kind => .halt (record_error st kind.message item.position)
  | .token (.TagOpen name attributes self_closing) =>
    if self_closing then
      .continue (append_child st (.Element name (element_attributes attributes) []))
    else
      .continue { st with stack := ⟨name, element_attributes attributes, []⟩ :: st.stack }
  | .token (.TagClose name) =>
    let st := handle_close st name item.position
    if st.has_error then .halt st else .continue st
  | .token (.Text content) => .continue (append_child st (.Text content))
  | .token (.Comment content) => .continue (append_child st (.Comment content))
  | .token .EndOfInput => .halt (handle_end_of_input st)

/-- Modelled from the spec: the parse loop: pull lexemes until one halts the
    parse; a lexer with nothing left answers `EndOfInput`.  Returns the final
    state and the lexemes never pulled. -/
def parse_loop : ParserState → List LexItem → ParserState × List LexItem
  | st, [] => (handle_end_of_input st, [])
  | st, item :: rest =>
    match parse_step st item with
    | .continue st => parse_loop st rest
    | .halt st => (st, rest)

/-- Modelled from the spec: the parser state after the lexemes `items` have
    all been consumed, `none` when the parse halts within them. -/
def feed : ParserState → List LexItem → Option ParserState
  | st, [] => some st
  | st, item :: rest =>
    match parse_step st item with
    | .continue st => feed st rest
    | .halt _ => none

/-- Modelled from the spec: the `Parser` of `parser.h`: the lexer it borrows
    and its own state. -/
structure Parser where
  lexer : Lexer
  state : ParserState
deriving Repr

/-- Modelled from the spec: `parser_init(lexer)`, `create_parser(lexer)` of
    section 6: an open-element stack seeded with the `Document` root, no
    error. -/
def parser_init (lexer : Lexer) : Parser :=
  { lexer := lexer
    state := { root := [], stack := [], error := none, position := Position.start } }

/-- Modelled from the spec: `parse(parser)`: the tree built and the parser as
    the parse leaves it. -/
def parse (parser : Parser) : DocumentNode × Parser :=
  let final := parse_loop parser.state parser.lexer.pending
  (tree_of final.1, { lexer := { parser.lexer with pending := final.2 }, state := final.1 })

/-- Modelled from the spec: the core as `main` sees it, over a file system
    `files`. -/
def spec_core (files : String → Option String) : Core Lexer Parser DocumentNode :=
  { read_file_to_buffer := files
    lexer_init := lexer_init
    parser_init := parser_init
    parse := fun parser =>
      { dom_root := (parse parser).1
        has_error := (parse parser).2.state.has_error
        error_message := (parse parser).2.state.error_message } }

/-- Two sample files: the specification's document with an omitted end tag
    and its document with an unmatched closing tag; no other file exists. -/
def sample_files (filename : String) : Option String :=
  if filename = "page.html" then some "<div><p>hi</div>"
  else if filename = "broken.html" then some "<div></span>"
  else none

/-! ## Reading a trace -/

/-- Which function an action of `main` calls (or which field it reads). -/
inductive Action where
  | printf | fprintf_stderr | fflush_stdout | sleep | usleep
  | read_file_to_buffer | lexer_init | parser_init | parse | read_has_error
  | print_dom_tree | free | lexer_free | parser_free | free_dom_tree
deriving DecidableEq, Repr

/-- The function an event calls. -/
def Event.action {L P D : Type} : Event L P D → Action
  | .printf _ => .printf
  | .fprintf_stderr _ => .fprintf_stderr
  | .fflush_stdout => .fflush_stdout
  | .sleep _ => .sleep
  | .usleep _ => .usleep
  | .read_file_to_buffer _ => .read_file_to_buffer
  | .lexer_init _ => .lexer_init
  | .parser_init _ => .parser_init
  | .parse _ => .parse
  | .read_has_error _ _ => .read_has_error
  | .print_dom_tree _ _ => .print_dom_tree
  | .free _ => .free
  | .lexer_free _ => .lexer_free
  | .parser_free _ => .parser_free
  | .free_dom_tree _ => .free_dom_tree

/-- The progress banners on `stdout` and the timed delays. -/
def Action.is_cosmetic : Action → Bool
  | .printf | .fflush_stdout | .sleep | .usleep => true
  | _ => false

/-- The calls into the lexer, the parser and the document tree. -/
def Action.is_core : Action → Bool
  | .lexer_init | .parser_init | .parse | .print_dom_tree
  | .lexer_free | .parser_free | .free_dom_tree => true
  | _ => false

/-- The releases of the lexer, the parser and the tree. -/
def Action.is_release : Action → Bool
  | .lexer_free | .parser_free | .free_dom_tree => true
  | _ => false

/-- The events of a trace that call `a`, in order. -/
def calls_of {L P D : Type} (a : Action) (tr : List (Event L P D)) : List (Event L P D) :=
  tr.filter (fun e => e.action = a)

/-- The trace without the banners and delays. -/
def without_cosmetics {L P D : Type} (tr : List (Event L P D)) : List (Event L P D) :=
  tr.filter (fun e => !e.action.is_cosmetic)

/-- In the trace `tr`, `a` is not called until after `b` has been called:
    every call of `a` has a call of `b` somewhere before it. -/
def OnlyAfter {L P D : Type} (a b : Action) (tr : List (Event L P D)) : Prop :=
  ∀ pre e post, tr = pre ++ e :: post → e.action = a → ∃ f ∈ pre, f.action = b

/-- A check of `OnlyAfter` by one pass over the trace. -/
def only_after {L P D : Type} (a b : Action) : List (Event L P D) → Bool
  | [] => true
  | e :: es => decide (e.action ≠ a) && (decide (e.action = b) || only_after a b es)

/-! ## Lemmas -/

theorem only_after_iff {L P D : Type} (a b : Action) (tr : List (Event L P D)) :
    OnlyAfter a b tr ↔ only_after a b tr = true := by
  induction tr with
  | nil =>
    simp only [only_after, iff_true]
    intro pre e post h
    simp at h
  | cons x xs ih =>
    simp only [only_after, Bool.and_eq_true, Bool.or_eq_true, decide_eq_true_eq]
    constructor
    · intro h
      refine ⟨?_, ?_⟩
      · intro hx
        obtain ⟨f, hf, _⟩ := h [] x xs rfl hx
        simp at hf
      · by_cases hb : x.action = b
        · exact Or.inl hb
        · right
          rw [← ih]
          intro pre e post hxs he
          obtain ⟨f, hf, hfb⟩ := h (x :: pre) e post (by simp [hxs]) he
          rcases List.mem_cons.mp hf with rfl | hf
          · exact absurd hfb hb
          · exact ⟨f, hf, hfb⟩
    · rintro ⟨hx, hb⟩ pre e post htr he
      cases pre with
      | nil =>
        simp only [List.nil_append, List.cons.injEq] at htr
        exact absurd (htr.1 ▸ he) hx
      | cons y pre =>
        simp only [List.cons_append, List.cons.injEq] at htr
        obtain ⟨rfl, hxs⟩ := htr
        rcases hb with hb | hb
        · exact ⟨x, List.mem_cons_self _ _, hb⟩
        · obtain ⟨f, hf, hfb⟩ := (ih.mpr hb) pre e post hxs he
          exact ⟨f, List.mem_cons_of_mem _ hf, hfb⟩

theorem close_onto_ne_nil (root : List DocumentNode) (rest : List OpenElement) :
    ∀ child, close_onto child root rest ≠ [] := by
  induction rest with
  | nil => intro child; simp [close_onto]
  | cons parent rest ih => intro child; simpa [close_onto] using ih _

theorem close_all_nil (root : List DocumentNode) : close_all root [] = root := rfl

theorem close_all_eq_nil_iff (root : List DocumentNode) (stack : List OpenElement) :
    close_all root stack = [] ↔ root = [] ∧ stack = [] := by
  cases stack with
  | nil => simp [close_all]
  | cons top rest => simp [close_all, close_onto_ne_nil]

theorem pop_until_unmatched (name : String) (root : List DocumentNode)
    (rest : List OpenElement) :
    ∀ top, names_match top.tag_name name = false →
      (∀ e ∈ rest, names_match e.tag_name name = false) →
      pop_until name root top rest = .unmatched (close_onto top.to_node root rest) := by
  induction rest with
  | nil => intro top htop _; simp [pop_until, close_onto, htop]
  | cons parent rest ih =>
    intro top htop hrest
    have hparent : names_match (parent.append top.to_node).tag_name name = false :=
      hrest parent (List.mem_cons_self _ _)
    simp only [pop_until, htop, close_onto]
    exact ih _ hparent (fun e he => hrest e (List.mem_cons_of_mem _ he))

theorem pop_until_top_matches (name : String) (root : List DocumentNode) (top : OpenElement)
    (below : List OpenElement) (htop : names_match top.tag_name name = true) :
    ∃ root1 stack1, pop_until name root top below = .matched root1 stack1 ∧
      close_all root1 stack1 = close_onto top.to_node root below ∧
      stack1.map (fun e => e.tag_name) = below.map (fun e => e.tag_name) := by
  cases below with
  | nil =>
    exact ⟨root ++ [top.to_node], [], by simp [pop_until, htop],
      by simp [close_all, close_onto], rfl⟩
  | cons parent rest =>
    exact ⟨root, parent.append top.to_node :: rest, by simp [pop_until, htop],
      by simp [close_all, close_onto], by simp [OpenElement.append]⟩

theorem pop_until_matched_below (name : String) (root : List DocumentNode) (m : OpenElement)
    (below : List OpenElement) (hm : names_match m.tag_name name = true) :
    ∀ (above : List OpenElement) (top : OpenElement),
      names_match top.tag_name name = false →
      (∀ e ∈ above, names_match e.tag_name name = false) →
      ∃ root1 stack1, pop_until name root top (above ++ m :: below) = .matched root1 stack1 ∧
        close_all root1 stack1 = close_onto top.to_node root (above ++ m :: below) ∧
        stack1.map (fun e => e.tag_name) = below.map (fun e => e.tag_name) := by
  intro above
  induction above with
  | nil =>
    intro top htop _
    have hm1 : names_match (m.append top.to_node).tag_name name = true := hm
    obtain ⟨root1, stack1, h1, h2, h3⟩ := pop_until_top_matches name root _ below hm1
    exact ⟨root1, stack1, by simpa [pop_until, htop] using h1,
      by simpa [close_onto] using h2, h3⟩
  | cons a above ih =>
    intro top htop habove
    have ha : names_match (a.append top.to_node).tag_name name = false :=
      habove a (List.mem_cons_self _ _)
    obtain ⟨root1, stack1, h1, h2, h3⟩ :=
      ih _ ha (fun e he => habove e (List.mem_cons_of_mem _ he))
    exact ⟨root1, stack1, by simpa [pop_until, htop] using h1,
      by simpa [close_onto] using h2, h3⟩

theorem handle_close_unmatched (st : ParserState) (name : String) (position : Position)
    (hno : st.error = none)
    (hstack : ∀ e ∈ st.stack, names_match e.tag_name name = false) :
    handle_close st name position =
      { st with
        root := close_all st.root st.stack
        stack := []
        error := some ⟨"unmatched closing tag " ++ name, position⟩ } := by
  cases hs : st.stack with
  | nil => simp [handle_close, hs, record_error, hno, close_all]
  | cons top rest =>
    rw [hs] at hstack
    have h := pop_until_unmatched name st.root rest top (hstack top (List.mem_cons_self _ _))
      (fun e he => hstack e (List.mem_cons_of_mem _ he))
    simp [handle_close, hs, h, record_error, hno, close_all]

theorem parse_step_continue_error (st st1 : ParserState) (item : LexItem)
    (h : parse_step st item = .continue st1) : st1.error = st.error := by
  obtain ⟨position, lexeme⟩ := item
  cases lexeme with
  | error kind => simp [parse_step] at h
  | token t =>
    cases t with
    | TagOpen name attributes self_closing =>
      cases self_closing <;> simp only [parse_step] at h
      · simp at h; subst h; rfl
      · simp [append_child] at h
        split at h <;> (subst h; rfl)
    | TagClose name =>
      simp only [parse_step] at h
      split at h
      · cases h
      · rename_i hE
        simp only [Step.continue.injEq] at h
        subst h
        simp only [handle_close] at hE ⊢
        split
        · rename_i hs
          simp only [hs, record_error] at hE
          split at hE <;> simp_all [ParserState.has_error]
        · rename_i top rest hs
          simp only [hs] at hE
          split
          · rfl
          · rename_i root hp
            simp only [hp, record_error] at hE
            split at hE <;> simp_all [ParserState.has_error]
    | Text content =>
      simp [parse_step, append_child] at h
      split at h <;> (subst h; rfl)
    | Comment content =>
      simp [parse_step, append_child] at h
      split at h <;> (subst h; rfl)
    | EndOfInput => simp [parse_step] at h

theorem feed_error (pre : List LexItem) :
    ∀ st st1, feed st pre = some st1 → st1.error = st.error := by
  induction pre with
  | nil => intro st st1 h; simp [feed] at h; subst h; rfl
  | cons item rest ih =>
    intro st st1 h
    simp only [feed] at h
    split at h
    · rename_i s hs
      rw [ih _ _ h, parse_step_continue_error _ _ _ hs]
    · cases h

theorem parse_loop_feed (pre : List LexItem) :
    ∀ st st1 tail, feed st pre = some st1 → parse_loop st (pre ++ tail) = parse_loop st1 tail := by
  induction pre with
  | nil => intro st st1 tail h; simp [feed] at h; subst h; rfl
  | cons item rest ih =>
    intro st st1 tail h
    simp only [feed] at h
    split at h
    · rename_i s hs
      simp only [List.cons_append, parse_loop, hs]
      exact ih _ _ _ h
    · cases h

theorem feed_append_one (pre : List LexItem) (item : LexItem) :
    ∀ st st1, feed st pre = some st1 →
      feed st (pre ++ [item]) = feed st1 [item] := by
  induction pre with
  | nil => intro st st1 h; simp [feed] at h; subst h; rfl
  | cons x rest ih =>
    intro st st1 h
    simp only [feed] at h
    split at h
    · rename_i s hs
      simp only [List.cons_append, feed, hs]
      exact ih _ _ h
    · cases h

theorem pop_until_matched_nonempty (name : String) (root : List DocumentNode)
    (rest : List OpenElement) :
    ∀ top root1 stack1, pop_until name root top rest = .matched root1 stack1 →
      root1 ≠ [] ∨ stack1 ≠ [] := by
  induction rest with
  | nil =>
    intro top root1 stack1 h
    simp only [pop_until] at h
    split at h
    · simp only [PopResult.matched.injEq] at h
      left
      rw [← h.1]
      simp
    · cases h
  | cons parent rest ih =>
    intro top root1 stack1 h
    simp only [pop_until] at h
    split at h
    · simp only [PopResult.matched.injEq] at h
      right
      rw [← h.2]
      simp
    · exact ih _ _ _ h

theorem append_child_nonempty (st : ParserState) (node : DocumentNode) :
    (append_child st node).root ≠ [] ∨ (append_child st node).stack ≠ [] := by
  unfold append_child
  split <;> simp

theorem parse_step_continue_nonempty (st st1 : ParserState) (item : LexItem)
    (h : parse_step st item = .continue st1) : st1.root ≠ [] ∨ st1.stack ≠ [] := by
  obtain ⟨position, lexeme⟩ := item
  cases lexeme with
  | error kind => simp [parse_step] at h
  | token t =>
    cases t with
    | TagOpen name attributes self_closing =>
      cases self_closing <;> simp only [parse_step] at h
      · simp at h; subst h; simp
      · simp only [if_true, Step.continue.injEq] at h
        subst h
        exact append_child_nonempty _ _
    | TagClose name =>
      simp only [parse_step] at h
      split at h
      · cases h
      · rename_i hE
        simp only [Step.continue.injEq] at h
        subst h
        simp only [handle_close] at hE ⊢
        split
        · rename_i hs
          simp only [hs, record_error] at hE
          split at hE <;> simp_all [ParserState.has_error]
        · rename_i top rest hs
          simp only [hs] at hE
          split
          · rename_i root stack hp
            exact pop_until_matched_nonempty _ _ _ _ _ _ hp
          · rename_i root hp
            simp only [hp, record_error] at hE
            split at hE <;> simp_all [ParserState.has_error]
    | Text content =>
      simp only [parse_step, Step.continue.injEq] at h
      subst h
      exact append_child_nonempty _ _
    | Comment content =>
      simp only [parse_step, Step.continue.injEq] at h
      subst h
      exact append_child_nonempty _ _
    | EndOfInput => simp [parse_step] at h

theorem feed_nonempty (pre : List LexItem) :
    ∀ st st1, feed st pre = some st1 → pre ≠ [] → st1.root ≠ [] ∨ st1.stack ≠ [] := by
  induction pre with
  | nil => intro st st1 _ hne; exact absurd rfl hne
  | cons item rest ih =>
    intro st st1 h _
    simp only [feed] at h
    split at h
    · rename_i s hs
      cases rest with
      | nil =>
        simp only [feed, Option.some.injEq] at h
        subst h
        exact parse_step_continue_nonempty _ _ _ hs
      | cons y ys => exact ih _ _ h (by simp)
    · cases h

theorem parse_loop_close_unmatched (st : ParserState) (name : String) (position : Position)
    (rest : List LexItem) (hno : st.error = none)
    (hstack : ∀ e ∈ st.stack, names_match e.tag_name name = false) :
    parse_loop st (⟨position, .token (.TagClose name)⟩ :: rest) =
      ({ root := close_all st.root st.stack
         stack := []
         error := some ⟨"unmatched closing tag " ++ name, position⟩
         position := position }, rest) := by
  have h := handle_close_unmatched { st with position := position } name position hno hstack
  simp only [parse_loop, parse_step]
  rw [h]
  simp [ParserState.has_error]

theorem parse_loop_end (st : ParserState) (tokens : List LexItem)
    (h : tokens = [] ∨ ∃ position rest, tokens = ⟨position, .token .EndOfInput⟩ :: rest) :
    (parse_loop st tokens).1.error = st.error ∧
    (parse_loop st tokens).1.stack = [] ∧
    (parse_loop st tokens).1.root = close_all st.root st.stack := by
  rcases h with rfl | ⟨position, rest, rfl⟩
  · simp [parse_loop, handle_end_of_input]
  · simp [parse_loop, parse_step, handle_end_of_input]

theorem feed_close_matched (st : ParserState) (name : String) (position : Position)
    (top m : OpenElement) (above below : List OpenElement) (hno : st.error = none)
    (hstack : st.stack = top :: (above ++ m :: below))
    (habove : ∀ e ∈ top :: above, names_match e.tag_name name = false)
    (hm : names_match m.tag_name name = true) :
    ∃ st1, feed st [⟨position, .token (.TagClose name)⟩] = some st1 ∧
      st1.error = none ∧
      st1.stack.map (fun e => e.tag_name) = below.map (fun e => e.tag_name) ∧
      tree_of st1 = tree_of st := by
  obtain ⟨root1, stack1, h1, h2, h3⟩ :=
    pop_until_matched_below name st.root m below hm above top
      (habove top (List.mem_cons_self _ _))
      (fun e he => habove e (List.mem_cons_of_mem _ he))
  refine ⟨{ st with position := position, root := root1, stack := stack1 }, ?_, hno, h3, ?_⟩
  · simp [feed, parse_step, handle_close, hstack, h1, ParserState.has_error, hno]
  · show DocumentNode.Document (close_all root1 stack1) =
      DocumentNode.Document (close_all st.root st.stack)
    rw [h2, hstack]
    rfl

theorem mem_of_mem_without_cosmetics {L P D : Type} (e : Event L P D)
    (tr : List (Event L P D)) (h : e ∈ without_cosmetics tr) : e ∈ tr :=
  (List.mem_filter.mp h).1

theorem sample_page_run :
    without_cosmetics (main (spec_core sample_files) ["html_parser", "page.html"]).trace =
      [.read_file_to_buffer "page.html",
       .lexer_init "<div><p>hi</div>",
       .parser_init (lexer_init "<div><p>hi</div>"),
       .parse (parser_init (lexer_init "<div><p>hi</div>")),
       .read_has_error (parser_init (lexer_init "<div><p>hi</div>")) false,
       .print_dom_tree (.Document [.Element "div" [] [.Element "p" [] [.Text "hi"]]]) 0,
       .free "<div><p>hi</div>",
       .lexer_free (lexer_init "<div><p>hi</div>"),
       .parser_free (parser_init (lexer_init "<div><p>hi</div>")),
       .free_dom_tree (.Document [.Element "div" [] [.Element "p" [] [.Text "hi"]]])] := by
  rfl

theorem sample_broken_run :
    without_cosmetics (main (spec_core sample_files) ["html_parser", "broken.html"]).trace =
      [.read_file_to_buffer "broken.html",
       .lexer_init "<div></span>",
       .parser_init (lexer_init "<div></span>"),
       .parse (parser_init (lexer_init "<div></span>")),
       .read_has_error (parser_init (lexer_init "<div></span>")) true,
       .fprintf_stderr "\n❌ PARSE FAILED ❌\n",
       .fprintf_stderr "unmatched closing tag span\n",
       .free "<div></span>",
       .lexer_free (lexer_init "<div></span>"),
       .parser_free (parser_init (lexer_init "<div></span>")),
       .free_dom_tree (.Document [.Element "div" [] []])] := by
  rfl

/-! ## The driver's contract -/

set_option maxRecDepth 20000
set_option maxHeartbeats 2000000

/-- C1: in a run with `argc = 2` whose file is read, the exit status is
    non-zero (`EXIT_FAILURE`) exactly when `parser->has_error` is set once
    `parse` has returned; then `stderr` receives the failure banner and
    `parser->error_message`, and the tree is not printed; otherwise the
    status is `EXIT_SUCCESS`, zero, nothing is written to `stderr` and the
    tree is dumped with `print_dom_tree`. -/
theorem exit_status_reports_has_error {L P D : Type} (core : Core L P D)
    (prog filename source_code : String)
    (hread : core.read_file_to_buffer filename = some source_code) :
    let result := core.parse (core.parser_init (core.lexer_init source_code))
    let run := main core [prog, filename]
    (run.status ≠ 0 ↔ result.has_error = true) ∧
    (run.status = EXIT_FAILURE ↔ result.has_error = true) ∧
    (result.has_error = true →
      calls_of .fprintf_stderr run.trace =
        [.fprintf_stderr "\n❌ PARSE FAILED ❌\n",
         .fprintf_stderr (result.error_message ++ "\n")] ∧
      calls_of .print_dom_tree run.trace = []) ∧
    (result.has_error = false →
      run.status = EXIT_SUCCESS ∧ run.status = 0 ∧
      calls_of .fprintf_stderr run.trace = [] ∧
      calls_of .print_dom_tree run.trace = [.print_dom_tree result.dom_root 0]) := by
  cases hE : (core.parse (core.parser_init (core.lexer_init source_code))).has_error <;>
    simp [main, hread, hE, for_loop, delay_print, calls_of, Event.action, EXIT_FAILURE,
      EXIT_SUCCESS]

/-- C2: in a successful run on `[prog, path]`, with banners and delays set
    aside, `main` does exactly this, in this order: `read_file_to_buffer(path)`,
    `lexer_init` on the buffer read, `parser_init` on that lexer, `parse` on
    that parser, the read of the error flag, `print_dom_tree` on the tree that
    `parse` returned, then the releases, `free_dom_tree` on that same tree;
    the buffer is not released before `parse` has run; the status is
    `EXIT_SUCCESS`. -/
theorem successful_run_follows_data_flow {L P D : Type} (core : Core L P D)
    (prog path source_code : String)
    (hread : core.read_file_to_buffer path = some source_code)
    (hok : (core.parse (core.parser_init (core.lexer_init source_code))).has_error = false) :
    let lexer := core.lexer_init source_code
    let parser := core.parser_init lexer
    let dom_root := (core.parse parser).dom_root
    let run := main core [prog, path]
    without_cosmetics run.trace =
      [.read_file_to_buffer path, .lexer_init source_code, .parser_init lexer, .parse parser,
       .read_has_error parser false, .print_dom_tree dom_root 0, .free source_code,
       .lexer_free lexer, .parser_free parser, .free_dom_tree dom_root] ∧
    run.status = EXIT_SUCCESS := by
  intro lexer parser dom_root run
  simp [run, dom_root, parser, lexer, main, hread, hok, for_loop, delay_print,
    without_cosmetics, Event.action, Action.is_cosmetic]

/-- C3: when `read_file_to_buffer` returns `NULL` the core never runs: no
    action of the run calls `lexer_init`, `parser_init`, `parse`,
    `print_dom_tree`, `lexer_free`, `parser_free` or `free_dom_tree`, nothing
    is freed, the one line on `stderr` names the file, and `main` returns
    `EXIT_FAILURE`. -/
theorem unreadable_file_never_reaches_core {L P D : Type} (core : Core L P D)
    (prog filename : String) (hread : core.read_file_to_buffer filename = none) :
    let run := main core [prog, filename]
    run.status = EXIT_FAILURE ∧
    (∀ e ∈ run.trace, e.action.is_core = false) ∧
    calls_of .free run.trace = [] ∧
    calls_of .fprintf_stderr run.trace =
      [.fprintf_stderr ("❌ Error: Could not read file \x27" ++ filename ++ "\x27.\n")] := by
  intro run
  simp [run, main, hread, for_loop, delay_print, calls_of, Event.action, Action.is_core]

/-- C10: with `argc != 2`, `main` returns `EXIT_FAILURE` and its only action
    is the usage line on `stderr`, naming `argv[0]`: no file is read, no lexer
    or parser is built, nothing goes to `stdout`; with `argc = 2` the one file
    read is `argv[1]`. -/
theorem usage_error_unless_one_file_name {L P D : Type} (core : Core L P D)
    (argv : List String) (hargc : argv.length ≠ 2) :
    (main core argv).status = EXIT_FAILURE ∧
    (main core argv).trace =
      [.fprintf_stderr ("Usage: " ++ fmt_s argv.head? ++ " <filename.html>\n")] ∧
    (∀ prog rest, argv = prog :: rest → fmt_s argv.head? = prog) ∧
    (∀ e ∈ (main core argv).trace, e.action = .fprintf_stderr) ∧
    (∀ prog filename,
      calls_of .read_file_to_buffer (main core [prog, filename]).trace =
        [.read_file_to_buffer filename]) := by
  refine ⟨?_, ?_, ?_, ?_, ?_⟩
  · rcases argv with _ | ⟨a, _ | ⟨b, _ | ⟨c, rest⟩⟩⟩ <;> simp_all [main]
  · rcases argv with _ | ⟨a, _ | ⟨b, _ | ⟨c, rest⟩⟩⟩ <;> simp_all [main]
  · rintro prog rest rfl
    rfl
  · rcases argv with _ | ⟨a, _ | ⟨b, _ | ⟨c, rest⟩⟩⟩ <;> simp_all [main, Event.action]
  · intro prog filename
    cases hread : core.read_file_to_buffer filename
    · simp [main, hread, for_loop, delay_print, calls_of, Event.action]
    · cases hE : (core.parse (core.parser_init (core.lexer_init ‹String›))).has_error <;>
        simp [main, hread, hE, for_loop, delay_print, calls_of, Event.action]

/-- C4: in every run the error flag is checked before the tree is used:
    `parser->has_error` is read only after `parse` was called, and
    `print_dom_tree` and `free_dom_tree` are called only after that read;
    when the flag read is false the tree `parse` returned is printed exactly
    once, at depth 0; when it is true the tree is never printed, only
    released; a run that never reads the flag prints nothing. -/
theorem error_flag_checked_before_tree_used {L P D : Type} (core : Core L P D)
    (argv : List String) :
    OnlyAfter .read_has_error .parse (main core argv).trace ∧
    OnlyAfter .print_dom_tree .read_has_error (main core argv).trace ∧
    OnlyAfter .free_dom_tree .read_has_error (main core argv).trace ∧
    (∀ parser value, Event.read_has_error parser value ∈ (main core argv).trace →
      value = (core.parse parser).has_error ∧
      calls_of .print_dom_tree (main core argv).trace =
        (if value then [] else [.print_dom_tree (core.parse parser).dom_root 0]) ∧
      calls_of .free_dom_tree (main core argv).trace =
        [.free_dom_tree (core.parse parser).dom_root]) ∧
    (calls_of .read_has_error (main core argv).trace = [] →
      calls_of .print_dom_tree (main core argv).trace = []) := by
  simp only [only_after_iff]
  rcases argv with _ | ⟨a, _ | ⟨b, _ | ⟨c, rest⟩⟩⟩
  · simp [main, only_after, calls_of, Event.action]
  · simp [main, only_after, calls_of, Event.action]
  · cases hread : core.read_file_to_buffer b with
    | none => simp [main, hread, for_loop, delay_print, only_after, calls_of, Event.action]
    | some source_code =>
      cases hE : (core.parse (core.parser_init (core.lexer_init source_code))).has_error <;>
        simp [main, hread, hE, for_loop, delay_print, only_after, calls_of, Event.action]
  · simp [main, only_after, calls_of, Event.action]

/-- C5: in every run each of the lexer, the parser and the tree is released
    exactly once per construction and never before it was constructed: a run
    that calls `lexer_init`, `parser_init`, `parse` (each at most once) calls
    `lexer_free`, `parser_free`, `free_dom_tree` exactly once, on the value
    the constructor returned, on the failure path as on the success path; no
    release comes before its constructor; a run that constructs nothing (bad
    arguments, unreadable file) releases nothing. -/
theorem each_resource_released_once {L P D : Type} (core : Core L P D) (argv : List String) :
    ((calls_of .lexer_init (main core argv).trace).length ≤ 1 ∧
     (calls_of .parser_init (main core argv).trace).length ≤ 1 ∧
     (calls_of .parse (main core argv).trace).length ≤ 1) ∧
    ((∀ source_code, Event.lexer_init source_code ∈ (main core argv).trace →
        calls_of .lexer_free (main core argv).trace =
          [.lexer_free (core.lexer_init source_code)]) ∧
     (∀ lexer, Event.parser_init lexer ∈ (main core argv).trace →
        calls_of .parser_free (main core argv).trace =
          [.parser_free (core.parser_init lexer)]) ∧
     (∀ parser, Event.parse parser ∈ (main core argv).trace →
        calls_of .free_dom_tree (main core argv).trace =
          [.free_dom_tree (core.parse parser).dom_root])) ∧
    (OnlyAfter .lexer_free .lexer_init (main core argv).trace ∧
     OnlyAfter .parser_free .parser_init (main core argv).trace ∧
     OnlyAfter .free_dom_tree .parse (main core argv).trace) ∧
    ((calls_of .lexer_init (main core argv).trace = [] →
        calls_of .lexer_free (main core argv).trace = []) ∧
     (calls_of .parser_init (main core argv).trace = [] →
        calls_of .parser_free (main core argv).trace = []) ∧
     (calls_of .parse (main core argv).trace = [] →
        calls_of .free_dom_tree (main core argv).trace = [])) ∧
    ((argv.length ≠ 2 ∨
        (∃ prog filename, argv = [prog, filename] ∧ core.read_file_to_buffer filename = none)) →
      ∀ e ∈ (main core argv).trace, e.action.is_release = false) := by
  simp only [only_after_iff]
  rcases argv with _ | ⟨a, _ | ⟨b, _ | ⟨c, rest⟩⟩⟩
  · simp [main, only_after, calls_of, Event.action, Action.is_release]
  · simp [main, only_after, calls_of, Event.action, Action.is_release]
  · cases hread : core.read_file_to_buffer b with
    | none =>
      simp [main, hread, for_loop, delay_print, only_after, calls_of, Event.action,
        Action.is_release]
    | some source_code =>
      cases hE : (core.parse (core.parser_init (core.lexer_init source_code))).has_error <;>
        simp [main, hread, hE, for_loop, delay_print, only_after, calls_of, Event.action,
          Action.is_release]
  · simp [main, only_after, calls_of, Event.action, Action.is_release]

/-- C6, as the code has it: in every run the source buffer stays live while
    it is parsed and the result is read: `free(source_code)` is not called
    until after `parse` has been called and `parser->has_error` has been read,
    nor, when the tree is printed, until after `print_dom_tree`; a run that
    builds a lexer frees the buffer exactly once; `lexer_free` and
    `parser_free` are called only after it. -/
theorem buffer_freed_after_parse_before_releases {L P D : Type} (core : Core L P D)
    (argv : List String) :
    OnlyAfter .free .parse (main core argv).trace ∧
    OnlyAfter .free .read_has_error (main core argv).trace ∧
    (calls_of .print_dom_tree (main core argv).trace = [] ∨
      OnlyAfter .free .print_dom_tree (main core argv).trace) ∧
    (∀ source_code, Event.lexer_init source_code ∈ (main core argv).trace →
      calls_of .free (main core argv).trace = [.free source_code]) ∧
    OnlyAfter .lexer_free .free (main core argv).trace ∧
    OnlyAfter .parser_free .free (main core argv).trace := by
  simp only [only_after_iff]
  rcases argv with _ | ⟨a, _ | ⟨b, _ | ⟨c, rest⟩⟩⟩
  · simp [main, only_after, calls_of, Event.action]
  · simp [main, only_after, calls_of, Event.action]
  · cases hread : core.read_file_to_buffer b with
    | none => simp [main, hread, for_loop, delay_print, only_after, calls_of, Event.action]
    | some source_code =>
      cases hE : (core.parse (core.parser_init (core.lexer_init source_code))).has_error <;>
        simp [main, hread, hE, for_loop, delay_print, only_after, calls_of, Event.action]
  · simp [main, only_after, calls_of, Event.action]

/-- C7, as the code has it: in every run the lexer is created before the
    parser (`lexer_init` before `parser_init`) and outlives the parse:
    `lexer_free` is not called until after `parse` has been called; a run that
    builds a lexer releases it exactly once; `parser_free` is called only
    after `lexer_free`. -/
theorem lexer_built_first_and_released_after_parse {L P D : Type} (core : Core L P D)
    (argv : List String) :
    OnlyAfter .parser_init .lexer_init (main core argv).trace ∧
    OnlyAfter .lexer_free .parse (main core argv).trace ∧
    (∀ source_code, Event.lexer_init source_code ∈ (main core argv).trace →
      calls_of .lexer_free (main core argv).trace =
        [.lexer_free (core.lexer_init source_code)]) ∧
    OnlyAfter .parser_free .lexer_free (main core argv).trace := by
  simp only [only_after_iff]
  rcases argv with _ | ⟨a, _ | ⟨b, _ | ⟨c, rest⟩⟩⟩
  · simp [main, only_after, calls_of, Event.action]
  · simp [main, only_after, calls_of, Event.action]
  · cases hread : core.read_file_to_buffer b with
    | none => simp [main, hread, for_loop, delay_print, only_after, calls_of, Event.action]
    | some source_code =>
      cases hE : (core.parse (core.parser_init (core.lexer_init source_code))).has_error <;>
        simp [main, hread, hE, for_loop, delay_print, only_after, calls_of, Event.action]
  · simp [main, only_after, calls_of, Event.action]

/-! ## The parser's contract -/

/-- C8, as the modelled parser has it: when the lexemes before a closing tag
    are consumed without halting and the tag's name matches no element on the
    open-element stack, `parse` records the fatal error "unmatched closing
    tag <name>" at the tag's position (`has_error` set, message retained),
    pulls no lexeme after the tag, and returns the tree built so far; that
    tree has a node below the `Document` root exactly when some lexeme came
    before the closing tag. -/
theorem unmatched_closing_tag_is_fatal (lexer : Lexer) (pre rest : List LexItem)
    (position : Position) (name : String) (st : ParserState)
    (htokens : lexer.pending = pre ++ ⟨position, .token (.TagClose name)⟩ :: rest)
    (hpre : feed (parser_init lexer).state pre = some st)
    (hunmatched : ∀ e ∈ st.stack, names_match e.tag_name name = false) :
    (parse (parser_init lexer)).2.state.has_error = true ∧
    (parse (parser_init lexer)).2.state.error_message = "unmatched closing tag " ++ name ∧
    (parse (parser_init lexer)).2.state.error =
      some ⟨"unmatched closing tag " ++ name, position⟩ ∧
    (parse (parser_init lexer)).2.lexer.pending = rest ∧
    (parse (parser_init lexer)).1 = tree_of st ∧
    ((parse (parser_init lexer)).1.children ≠ [] ↔ pre ≠ []) := by
  have hno : st.error = none := by rw [feed_error pre _ _ hpre]; rfl
  have hloop : parse_loop (parser_init lexer).state lexer.pending =
      ({ root := close_all st.root st.stack
         stack := []
         error := some ⟨"unmatched closing tag " ++ name, position⟩
         position := position }, rest) := by
    rw [htokens, parse_loop_feed pre _ _ _ hpre]
    exact parse_loop_close_unmatched st name position rest hno hunmatched
  have hlexer : (parser_init lexer).lexer = lexer := rfl
  simp only [parse, hlexer, hloop, ParserState.has_error, ParserState.error_message,
    tree_of, close_all_nil, DocumentNode.children, Option.isSome_some, true_and, ne_eq,
    close_all_eq_nil_iff, not_and]
  constructor
  · intro h hpre_nil
    subst hpre_nil
    simp only [feed, Option.some.injEq] at hpre
    subst hpre
    exact h rfl rfl
  · intro hne hroot hstack
    rcases feed_nonempty pre _ _ hpre hne with h | h
    · exact h hroot
    · exact h hstack

/-- C9: when the lexemes before a closing tag are consumed without halting
    and the tag matches an element that is on the open-element stack below at
    least one element that it does not match, the parse goes on without an
    error: the matching element and every element above it leave the stack,
    the elements below it stay, and the tree built so far is unchanged; and
    when the input ends after lexemes consumed without halting, whatever is
    still open is closed without an error and the tree built so far is
    returned. -/
theorem implicit_close_is_silent :
    (∀ (lexer : Lexer) (pre : List LexItem) (position : Position) (name : String)
        (st : ParserState) (top m : OpenElement) (above below : List OpenElement),
      feed (parser_init lexer).state pre = some st →
      st.stack = top :: (above ++ m :: below) →
      (∀ e ∈ top :: above, names_match e.tag_name name = false) →
      names_match m.tag_name name = true →
      ∃ st1,
        feed (parser_init lexer).state (pre ++ [⟨position, .token (.TagClose name)⟩]) =
          some st1 ∧
        st1.has_error = false ∧
        st1.stack.map (fun e => e.tag_name) = below.map (fun e => e.tag_name) ∧
        tree_of st1 = tree_of st) ∧
    (∀ (lexer : Lexer) (pre : List LexItem) (st : ParserState),
      feed (parser_init lexer).state pre = some st →
      (lexer.pending = pre ∨
        ∃ position rest, lexer.pending = pre ++ ⟨position, .token .EndOfInput⟩ :: rest) →
      (parse (parser_init lexer)).2.state.has_error = false ∧
      (parse (parser_init lexer)).2.state.stack = [] ∧
      (parse (parser_init lexer)).1 = tree_of st) := by
  constructor
  · intro lexer pre position name st top m above below hpre hstack habove hm
    have hno : st.error = none := by rw [feed_error pre _ _ hpre]; rfl
    obtain ⟨st1, h1, h2, h3, h4⟩ :=
      feed_close_matched st name position top m above below hno hstack habove hm
    exact ⟨st1, by rw [feed_append_one pre _ _ _ hpre, h1],
      by simp [ParserState.has_error, h2], h3, h4⟩
  · intro lexer pre st hpre hend
    have hno : st.error = none := by rw [feed_error pre _ _ hpre]; rfl
    have hlexer : (parser_init lexer).lexer = lexer := rfl
    have hloop : ∃ tokens, (tokens = [] ∨
          ∃ position rest, tokens = ⟨position, .token .EndOfInput⟩ :: rest) ∧
        parse_loop (parser_init lexer).state lexer.pending = parse_loop st tokens := by
      rcases hend with h | ⟨position, rest, h⟩
      · refine ⟨[], Or.inl rfl, ?_⟩
        have := parse_loop_feed pre _ _ [] hpre
        rwa [List.append_nil, ← h] at this
      · exact ⟨_, Or.inr ⟨position, rest, rfl⟩, by rw [h, parse_loop_feed pre _ _ _ hpre]⟩
    obtain ⟨tokens, htokens, hloop⟩ := hloop
    obtain ⟨e1, e2, e3⟩ := parse_loop_end st tokens htokens
    simp only [parse, hlexer, hloop, ParserState.has_error, e1, e2, e3, hno, tree_of,
      close_all_nil, Option.isSome_none, and_self]

/-! ## The contract at the specification's sample documents -/

/-- On `broken.html` (`<div></span>`) the run fails: status `EXIT_FAILURE`,
    banner and parser message on `stderr`. -/
theorem exit_status_reports_has_error_witness :
    (spec_core sample_files).read_file_to_buffer "broken.html" = some "<div></span>" ∧
    (main (spec_core sample_files) ["html_parser", "broken.html"]).status = EXIT_FAILURE ∧
    calls_of .fprintf_stderr (main (spec_core sample_files) ["html_parser", "broken.html"]).trace =
      [.fprintf_stderr "\n❌ PARSE FAILED ❌\n",
       .fprintf_stderr "unmatched closing tag span\n"] :=
  have h := exit_status_reports_has_error (spec_core sample_files) "html_parser" "broken.html"
    "<div></span>" rfl
  ⟨rfl, h.2.1.mpr rfl, (h.2.2.1 rfl).1⟩

/-- On `page.html` (`<div><p>hi</div>`) the run succeeds and prints and
    releases the tree div > p > "hi". -/
theorem successful_run_follows_data_flow_witness :
    (spec_core sample_files).read_file_to_buffer "page.html" = some "<div><p>hi</div>" ∧
    (parse (parser_init (lexer_init "<div><p>hi</div>"))).2.state.has_error = false ∧
    without_cosmetics (main (spec_core sample_files) ["html_parser", "page.html"]).trace =
      [.read_file_to_buffer "page.html",
       .lexer_init "<div><p>hi</div>",
       .parser_init (lexer_init "<div><p>hi</div>"),
       .parse (parser_init (lexer_init "<div><p>hi</div>")),
       .read_has_error (parser_init (lexer_init "<div><p>hi</div>")) false,
       .print_dom_tree (.Document [.Element "div" [] [.Element "p" [] [.Text "hi"]]]) 0,
       .free "<div><p>hi</div>",
       .lexer_free (lexer_init "<div><p>hi</div>"),
       .parser_free (parser_init (lexer_init "<div><p>hi</div>")),
       .free_dom_tree (.Document [.Element "div" [] [.Element "p" [] [.Text "hi"]]])] ∧
    (main (spec_core sample_files) ["html_parser", "page.html"]).status = EXIT_SUCCESS :=
  ⟨rfl, rfl,
    successful_run_follows_data_flow (spec_core sample_files) "html_parser" "page.html"
      "<div><p>hi</div>" rfl rfl⟩

/-- A file that does not exist: the run fails before the core is reached. -/
theorem unreadable_file_never_reaches_core_witness :
    (spec_core sample_files).read_file_to_buffer "missing.html" = none ∧
    (main (spec_core sample_files) ["html_parser", "missing.html"]).status = EXIT_FAILURE ∧
    (∀ e ∈ (main (spec_core sample_files) ["html_parser", "missing.html"]).trace,
      e.action.is_core = false) ∧
    calls_of .fprintf_stderr (main (spec_core sample_files) ["html_parser", "missing.html"]).trace =
      [.fprintf_stderr "❌ Error: Could not read file \x27missing.html\x27.\n"] :=
  have h := unreadable_file_never_reaches_core (spec_core sample_files) "html_parser"
    "missing.html" rfl
  ⟨rfl, h.1, h.2.1, h.2.2.2⟩

/-- No file name on the command line: the usage line and nothing else. -/
theorem usage_error_unless_one_file_name_witness :
    ["html_parser"].length ≠ 2 ∧
    (main (spec_core sample_files) ["html_parser"]).status = EXIT_FAILURE ∧
    (main (spec_core sample_files) ["html_parser"]).trace =
      [.fprintf_stderr "Usage: html_parser <filename.html>\n"] :=
  have h := usage_error_unless_one_file_name (spec_core sample_files) ["html_parser"]
    (by decide)
  ⟨by decide, h.1, h.2.1⟩

/-- On `broken.html` the flag read is true: the tree is released, never
    printed. -/
theorem error_flag_checked_before_tree_used_witness :
    Event.read_has_error (parser_init (lexer_init "<div></span>")) true ∈
      (main (spec_core sample_files) ["html_parser", "broken.html"]).trace ∧
    calls_of .print_dom_tree (main (spec_core sample_files) ["html_parser", "broken.html"]).trace =
      [] ∧
    calls_of .free_dom_tree (main (spec_core sample_files) ["html_parser", "broken.html"]).trace =
      [.free_dom_tree (.Document [.Element "div" [] []])] :=
  have hmem : Event.read_has_error (parser_init (lexer_init "<div></span>")) true ∈
      (main (spec_core sample_files) ["html_parser", "broken.html"]).trace :=
    mem_of_mem_without_cosmetics _ _ (by rw [sample_broken_run]; simp)
  have h := (error_flag_checked_before_tree_used (spec_core sample_files)
    ["html_parser", "broken.html"]).2.2.2.1 _ _ hmem
  ⟨hmem, h.2.1, h.2.2⟩

/-- On `page.html` the lexer, the parser and the tree are each built once
    and released once. -/
theorem each_resource_released_once_witness :
    Event.lexer_init "<div><p>hi</div>" ∈
      (main (spec_core sample_files) ["html_parser", "page.html"]).trace ∧
    calls_of .lexer_free (main (spec_core sample_files) ["html_parser", "page.html"]).trace =
      [.lexer_free (lexer_init "<div><p>hi</div>")] ∧
    calls_of .parser_free (main (spec_core sample_files) ["html_parser", "page.html"]).trace =
      [.parser_free (parser_init (lexer_init "<div><p>hi</div>"))] ∧
    calls_of .free_dom_tree (main (spec_core sample_files) ["html_parser", "page.html"]).trace =
      [.free_dom_tree (.Document [.Element "div" [] [.Element "p" [] [.Text "hi"]]])] :=
  have h := (each_resource_released_once (spec_core sample_files)
    ["html_parser", "page.html"]).2.1
  have hlexer : Event.lexer_init "<div><p>hi</div>" ∈
      (main (spec_core sample_files) ["html_parser", "page.html"]).trace :=
    mem_of_mem_without_cosmetics _ _ (by rw [sample_page_run]; simp)
  ⟨hlexer, h.1 _ hlexer,
    h.2.1 (lexer_init "<div><p>hi</div>")
      (mem_of_mem_without_cosmetics _ _ (by rw [sample_page_run]; simp)),
    h.2.2 (parser_init (lexer_init "<div><p>hi</div>"))
      (mem_of_mem_without_cosmetics _ _ (by rw [sample_page_run]; simp))⟩

/-- On `page.html` the buffer is freed once, after the parse. -/
theorem buffer_freed_after_parse_before_releases_witness :
    Event.lexer_init "<div><p>hi</div>" ∈
      (main (spec_core sample_files) ["html_parser", "page.html"]).trace ∧
    calls_of .free (main (spec_core sample_files) ["html_parser", "page.html"]).trace =
      [.free "<div><p>hi</div>"] :=
  have hlexer : Event.lexer_init "<div><p>hi</div>" ∈
      (main (spec_core sample_files) ["html_parser", "page.html"]).trace :=
    mem_of_mem_without_cosmetics _ _ (by rw [sample_page_run]; simp)
  ⟨hlexer, (buffer_freed_after_parse_before_releases (spec_core sample_files)
    ["html_parser", "page.html"]).2.2.2.1 _ hlexer⟩

/-- On `broken.html` the lexer is released once, after the failed parse. -/
theorem lexer_built_first_and_released_after_parse_witness :
    Event.lexer_init "<div></span>" ∈
      (main (spec_core sample_files) ["html_parser", "broken.html"]).trace ∧
    calls_of .lexer_free (main (spec_core sample_files) ["html_parser", "broken.html"]).trace =
      [.lexer_free (lexer_init "<div></span>")] :=
  have hlexer : Event.lexer_init "<div></span>" ∈
      (main (spec_core sample_files) ["html_parser", "broken.html"]).trace :=
    mem_of_mem_without_cosmetics _ _ (by rw [sample_broken_run]; simp)
  ⟨hlexer, (lexer_built_first_and_released_after_parse (spec_core sample_files)
    ["html_parser", "broken.html"]).2.2.1 _ hlexer⟩

/-- C6, as the claim has it, fails on both sample runs: `free(source_code)`
    is called with no `lexer_free` and no `parser_free` before it. -/
theorem buffer_freed_while_lexer_and_parser_exist :
    ¬ OnlyAfter .free .lexer_free
        (main (spec_core sample_files) ["html_parser", "page.html"]).trace ∧
    ¬ OnlyAfter .free .parser_free
        (main (spec_core sample_files) ["html_parser", "page.html"]).trace ∧
    ¬ OnlyAfter .free .lexer_free
        (main (spec_core sample_files) ["html_parser", "broken.html"]).trace ∧
    ¬ OnlyAfter .free .parser_free
        (main (spec_core sample_files) ["html_parser", "broken.html"]).trace := by
  simp only [only_after_iff]
  decide

/-- C7, as the claim has it, fails on both sample runs: `lexer_free` is
    called with no `parser_free` before it. -/
theorem lexer_released_while_parser_exists :
    ¬ OnlyAfter .lexer_free .parser_free
        (main (spec_core sample_files) ["html_parser", "page.html"]).trace ∧
    ¬ OnlyAfter .lexer_free .parser_free
        (main (spec_core sample_files) ["html_parser", "broken.html"]).trace := by
  simp only [only_after_iff]
  decide

/-- C8, as the claim has it, fails on `</span>`: the closing tag matches no
    element on the (empty) stack and the error is recorded, yet the tree
    returned is the `Document` root with no node below it. -/
theorem bare_closing_tag_returns_empty_tree :
    (lexer_init "</span>").pending =
      [⟨⟨0, 1, 1⟩, .token (.TagClose "span")⟩, ⟨⟨7, 1, 8⟩, .token .EndOfInput⟩] ∧
    (parser_init (lexer_init "</span>")).state.stack = [] ∧
    (parse (parser_init (lexer_init "</span>"))).2.state.has_error = true ∧
    (parse (parser_init (lexer_init "</span>"))).2.state.error_message =
      "unmatched closing tag span" ∧
    (parse (parser_init (lexer_init "</span>"))).1 = .Document [] ∧
    ¬ ((parse (parser_init (lexer_init "</span>"))).1.children ≠ []) :=
  ⟨rfl, rfl, rfl, rfl, rfl, fun h => h rfl⟩

/-- On `<div></span>`: the error names `span`, nothing after the tag is
    pulled, and the tree returned holds `div`. -/
theorem unmatched_closing_tag_is_fatal_witness :
    (lexer_init "<div></span>").pending =
      [⟨⟨0, 1, 1⟩, .token (.TagOpen "div" [] false)⟩] ++
        ⟨⟨5, 1, 6⟩, .token (.TagClose "span")⟩ :: [⟨⟨12, 1, 13⟩, .token .EndOfInput⟩] ∧
    (parse (parser_init (lexer_init "<div></span>"))).2.state.has_error = true ∧
    (parse (parser_init (lexer_init "<div></span>"))).2.state.error_message =
      "unmatched closing tag span" ∧
    (parse (parser_init (lexer_init "<div></span>"))).2.lexer.pending =
      [⟨⟨12, 1, 13⟩, .token .EndOfInput⟩] ∧
    (parse (parser_init (lexer_init "<div></span>"))).1 = .Document [.Element "div" [] []] ∧
    (parse (parser_init (lexer_init "<div></span>"))).1.children ≠ [] :=
  have h := unmatched_closing_tag_is_fatal (lexer_init "<div></span>")
    [⟨⟨0, 1, 1⟩, .token (.TagOpen "div" [] false)⟩] [⟨⟨12, 1, 13⟩, .token .EndOfInput⟩]
    ⟨5, 1, 6⟩ "span"
    { root := [], stack := [⟨"div", [], []⟩], error := none, position := ⟨0, 1, 1⟩ }
    rfl rfl (by decide)
  ⟨rfl, h.1, h.2.1, h.2.2.2.1, h.2.2.2.2.1, h.2.2.2.2.2.mpr (by simp)⟩

/-- On `<div><p>hi</div>`: `</div>` closes `p` and `div` without an error,
    and the parse ends with no error on div > p > "hi". -/
theorem implicit_close_is_silent_witness :
    (lexer_init "<div><p>hi</div>").pending =
      [⟨⟨0, 1, 1⟩, .token (.TagOpen "div" [] false)⟩,
       ⟨⟨5, 1, 6⟩, .token (.TagOpen "p" [] false)⟩,
       ⟨⟨8, 1, 9⟩, .token (.Text "hi")⟩] ++
        [⟨⟨10, 1, 11⟩, .token (.TagClose "div")⟩] ++
        ⟨⟨16, 1, 17⟩, .token .EndOfInput⟩ :: [] ∧
    (∃ st1,
      feed (parser_init (lexer_init "<div><p>hi</div>")).state
          ([⟨⟨0, 1, 1⟩, .token (.TagOpen "div" [] false)⟩,
            ⟨⟨5, 1, 6⟩, .token (.TagOpen "p" [] false)⟩,
            ⟨⟨8, 1, 9⟩, .token (.Text "hi")⟩] ++
            [⟨⟨10, 1, 11⟩, .token (.TagClose "div")⟩]) = some st1 ∧
      st1.has_error = false ∧
      st1.stack.map (fun e => e.tag_name) = [] ∧
      tree_of st1 = .Document [.Element "div" [] [.Element "p" [] [.Text "hi"]]]) ∧
    (parse (parser_init (lexer_init "<div><p>hi</div>"))).2.state.has_error = false ∧
    (parse (parser_init (lexer_init "<div><p>hi</div>"))).1 =
      .Document [.Element "div" [] [.Element "p" [] [.Text "hi"]]] :=
  have hclose := implicit_close_is_silent.1 (lexer_init "<div><p>hi</div>")
    [⟨⟨0, 1, 1⟩, .token (.TagOpen "div" [] false)⟩,
     ⟨⟨5, 1, 6⟩, .token (.TagOpen "p" [] false)⟩,
     ⟨⟨8, 1, 9⟩, .token (.Text "hi")⟩]
    ⟨10, 1, 11⟩ "div"
    { root := [], stack := [⟨"p", [], [.Text "hi"]⟩, ⟨"div", [], []⟩], error := none,
      position := ⟨8, 1, 9⟩ }
    ⟨"p", [], [.Text "hi"]⟩ ⟨"div", [], []⟩ [] [] rfl rfl (by decide) (by decide)
  have hend := implicit_close_is_silent.2 (lexer_init "<div><p>hi</div>")
    [⟨⟨0, 1, 1⟩, .token (.TagOpen "div" [] false)⟩,
     ⟨⟨5, 1, 6⟩, .token (.TagOpen "p" [] false)⟩,
     ⟨⟨8, 1, 9⟩, .token (.Text "hi")⟩,
     ⟨⟨10, 1, 11⟩, .token (.TagClose "div")⟩]
    { root := [.Element "div" [] [.Element "p" [] [.Text "hi"]]], stack := [], error := none,
      position := ⟨10, 1, 11⟩ }
    rfl (Or.inr ⟨⟨16, 1, 17⟩, [], rfl⟩)
  ⟨rfl, hclose, hend.1, hend.2.2⟩

end HtmlParser
